import Mathlib

/-!
Shallow embedding of `src/day21.rs` (Advent of Code 2024, day 21).

The Rust module models two keypads (a numeric keypad and a directional
keypad) laid out on small grids, each with one gap cell.  A DFS enumerates
all minimal move sequences between two buttons, a per-level cost table is
built for the directional keypad, and the complexity of a numeric code is
its numeric value times the minimal number of user keystrokes.

Rust `Result<T, AocError>` values are embedded as `Option` (errors and
panics become `none`); `usize` arithmetic is embedded as `Nat`.  The one
place a `usize` bound is observable is `usize::from_str` inside
`code_value`, whose checked accumulation (`PosOverflow`) is embedded
explicitly in `parseStep`.
-/

namespace Day21

/-- `enum Direction` from day21.rs. -/
inductive Direction : Type
  | Up
  | Right
  | Down
  | Left
deriving DecidableEq, Repr, Fintype

/-- `struct Pos(usize, usize)`: grid position, `x` to the right, `y` downward. -/
structure Pos : Type where
  x : Nat
  y : Nat
deriving DecidableEq, Repr

/-- `Pos::get_dirs_towards`: for each axis, the direction that moves this
position towards `goal` on that axis (`none` when already aligned).  The
Rust code matches on `usize::cmp`; the `Ordering` match is embedded as the
equivalent `<` / `=` / `>` trichotomy. -/
def get_dirs_towards (s goal : Pos) : Option Direction × Option Direction :=
  let in_x :=
    if s.x < goal.x then some Direction.Right
    else if goal.x < s.x then some Direction.Left
    else none
  let in_y :=
    if s.y < goal.y then some Direction.Down
    else if goal.y < s.y then some Direction.Up
    else none
  (in_x, in_y)

/-- `enum NumpadButton` from day21.rs. -/
inductive NumpadButton : Type
  | ButtonA
  | Button0
  | Button1
  | Button2
  | Button3
  | Button4
  | Button5
  | Button6
  | Button7
  | Button8
  | Button9
deriving DecidableEq, Repr, Fintype

/-- `enum DirpadButton` from day21.rs. -/
inductive DirpadButton : Type
  | ButtonA
  | ButtonU
  | ButtonR
  | ButtonD
  | ButtonL
deriving DecidableEq, Repr, Fintype

namespace NumpadButton

/-- `impl GridGraph for NumpadButton`, `go_up`. -/
def go_up : NumpadButton → Option NumpadButton
  | ButtonA => some Button3
  | Button0 => some Button2
  | Button1 => some Button4
  | Button2 => some Button5
  | Button3 => some Button6
  | Button4 => some Button7
  | Button5 => some Button8
  | Button6 => some Button9
  | Button7 => none
  | Button8 => none
  | Button9 => none

/-- `impl GridGraph for NumpadButton`, `go_right`. -/
def go_right : NumpadButton → Option NumpadButton
  | ButtonA => none
  | Button0 => some ButtonA
  | Button1 => some Button2
  | Button2 => some Button3
  | Button3 => none
  | Button4 => some Button5
  | Button5 => some Button6
  | Button6 => none
  | Button7 => some Button8
  | Button8 => some Button9
  | Button9 => none

/-- `impl GridGraph for NumpadButton`, `go_down`. -/
def go_down : NumpadButton → Option NumpadButton
  | ButtonA => none
  | Button0 => none
  | Button1 => none
  | Button2 => some Button0
  | Button3 => some ButtonA
  | Button4 => some Button1
  | Button5 => some Button2
  | Button6 => some Button3
  | Button7 => some Button4
  | Button8 => some Button5
  | Button9 => some Button6

/-- `impl GridGraph for NumpadButton`, `go_left`. -/
def go_left : NumpadButton → Option NumpadButton
  | ButtonA => some Button0
  | Button0 => none
  | Button1 => none
  | Button2 => some Button1
  | Button3 => some Button2
  | Button4 => none
  | Button5 => some Button4
  | Button6 => some Button5
  | Button7 => none
  | Button8 => some Button7
  | Button9 => some Button8

/-- `impl GridGraph for NumpadButton`, `get_pos`. -/
def get_pos : NumpadButton → Pos
  | ButtonA => ⟨2, 3⟩
  | Button0 => ⟨1, 3⟩
  | Button1 => ⟨0, 2⟩
  | Button2 => ⟨1, 2⟩
  | Button3 => ⟨2, 2⟩
  | Button4 => ⟨0, 1⟩
  | Button5 => ⟨1, 1⟩
  | Button6 => ⟨2, 1⟩
  | Button7 => ⟨0, 0⟩
  | Button8 => ⟨1, 0⟩
  | Button9 => ⟨2, 0⟩

/-- `GridGraph::go` dispatch for the numeric keypad. -/
def go (b : NumpadButton) : Direction → Option NumpadButton
  | Direction.Up => b.go_up
  | Direction.Right => b.go_right
  | Direction.Down => b.go_down
  | Direction.Left => b.go_left

end NumpadButton

namespace DirpadButton

/-- `impl GridGraph for DirpadButton`, `go_up`. -/
def go_up : DirpadButton → Option DirpadButton
  | ButtonA => none
  | ButtonU => none
  | ButtonR => some ButtonA
  | ButtonD => some ButtonU
  | ButtonL => none

/-- `impl GridGraph for DirpadButton`, `go_right`. -/
def go_right : DirpadButton → Option DirpadButton
  | ButtonA => none
  | ButtonU => some ButtonA
  | ButtonR => none
  | ButtonD => some ButtonR
  | ButtonL => some ButtonD

/-- `impl GridGraph for DirpadButton`, `go_down`. -/
def go_down : DirpadButton → Option DirpadButton
  | ButtonA => some ButtonR
  | ButtonU => some ButtonD
  | ButtonR => none
  | ButtonD => none
  | ButtonL => none

/-- `impl GridGraph for DirpadButton`, `go_left`. -/
def go_left : DirpadButton → Option DirpadButton
  | ButtonA => some ButtonU
  | ButtonU => none
  | ButtonR => some ButtonD
  | ButtonD => some ButtonL
  | ButtonL => none

/-- `impl GridGraph for DirpadButton`, `get_pos`. -/
def get_pos : DirpadButton → Pos
  | ButtonA => ⟨2, 0⟩
  | ButtonU => ⟨1, 0⟩
  | ButtonR => ⟨2, 1⟩
  | ButtonD => ⟨1, 1⟩
  | ButtonL => ⟨0, 1⟩

/-- `GridGraph::go` dispatch for the directional keypad. -/
def go (b : DirpadButton) : Direction → Option DirpadButton
  | Direction.Up => b.go_up
  | Direction.Right => b.go_right
  | Direction.Down => b.go_down
  | Direction.Left => b.go_left

end DirpadButton

/-- Manhattan distance between two grid positions (`Nat` absolute differences). -/
def manhattan (a b : Pos) : Nat :=
  ((a.x - b.x) + (b.x - a.x)) + ((a.y - b.y) + (b.y - a.y))

/-- One branch of the DFS body of `PathIter::next`: given the recursive
enumeration `recur` for the remaining fuel, try to move one step in the
optional direction `od`; a failed `go` (the gap or the grid edge) prunes the
branch, a successful one prefixes `d` to every path found from the new node. -/
def branchPaths {α : Type} (recur : α → List (List Direction))
    (go : α → Direction → Option α) (s : α) : Option Direction → List (List Direction)
  | some d =>
    match go s d with
    | some nxt => (recur nxt).map (fun p => d :: p)
    | none => []
  | none => []

/-- The DFS of `PathIter::next`, in recursive form.  The Rust iterator keeps an
explicit stack; popping yields exactly this recursion, where the `in_y` child
(pushed last) is explored before the `in_x` child, so the `in_y` subtree's
sequences come first.  `fuel` bounds the recursion depth; every move offered by
`get_dirs_towards` strictly reduces the Manhattan distance to the goal, so
`fuel = manhattan` is enough (proved below). -/
def pathsAux {α : Type} [DecidableEq α] (go : α → Direction → Option α)
    (pos : α → Pos) (goal : α) : Nat → α → List (List Direction)
  | 0, s => if s = goal then [[]] else []
  | fuel + 1, s =>
    if s = goal then [[]]
    else
      branchPaths (pathsAux go pos goal fuel) go s (get_dirs_towards (pos s) (pos goal)).2 ++
      branchPaths (pathsAux go pos goal fuel) go s (get_dirs_towards (pos s) (pos goal)).1

/-- `From<Vec<Direction>> for DirpadSequence`: a move sequence becomes a
directional-button sequence, bracketed by the start marker `A` and the
confirming `A` press. -/
def ofDirs (dirs : List Direction) : List DirpadButton :=
  DirpadButton.ButtonA ::
    (dirs.map (fun d =>
      match d with
      | Direction.Up => DirpadButton.ButtonU
      | Direction.Right => DirpadButton.ButtonR
      | Direction.Down => DirpadButton.ButtonD
      | Direction.Left => DirpadButton.ButtonL) ++ [DirpadButton.ButtonA])

/-- `GridGraph::iter_paths` for the numeric keypad, as the list of raw move
sequences (before the `DirpadSequence` conversion). -/
def NumpadButton.iter_path_dirs (s goal : NumpadButton) : List (List Direction) :=
  pathsAux NumpadButton.go NumpadButton.get_pos goal
    (manhattan s.get_pos goal.get_pos) s

/-- `GridGraph::iter_paths` for the numeric keypad: each yielded item is a
`DirpadSequence`. -/
def NumpadButton.iter_paths (s goal : NumpadButton) : List (List DirpadButton) :=
  (NumpadButton.iter_path_dirs s goal).map ofDirs

/-- `GridGraph::iter_paths` for the directional keypad, raw move sequences. -/
def DirpadButton.iter_path_dirs (s goal : DirpadButton) : List (List Direction) :=
  pathsAux DirpadButton.go DirpadButton.get_pos goal
    (manhattan s.get_pos goal.get_pos) s

/-- `GridGraph::iter_paths` for the directional keypad: each yielded item is a
`DirpadSequence`. -/
def DirpadButton.iter_paths (s goal : DirpadButton) : List (List DirpadButton) :=
  (DirpadButton.iter_path_dirs s goal).map ofDirs

/-- `slice::windows(2)` as used in day21.rs: the list of consecutive pairs. -/
def pairsOf {α : Type} : List α → List (α × α)
  | a :: b :: rest => (a, b) :: pairsOf (b :: rest)
  | _ => []

/-- `Iterator::min` over a list of costs.  The Rust code unwraps with
`expect("at least one path exists")`; the `[]` arm is unreachable because the
enumerator always yields at least one path (see `iter_paths_length_pos`). -/
def minOfList : List Nat → Nat
  | [] => 0
  | [x] => x
  | x :: y :: rest => Nat.min x (minOfList (y :: rest))

/-- `get_path_cost`: the cost of walking a directional-button sequence is the
sum, over its consecutive pairs, of the per-pair cost table entries.  The Rust
25-entry array indexed by `s_id * 5 + g_id` over `ID_MAPPING` is embedded as a
curried function on the 5-element button type. -/
def get_path_cost (path : List DirpadButton)
    (move_cost : DirpadButton → DirpadButton → Nat) : Nat :=
  ((pairsOf path).map (fun sg => move_cost sg.1 sg.2)).sum

/-- The level-indexed cost table built inside `get_button_count`: level 0 maps
every pair of directional buttons to cost 1 (the user presses directly); level
`L+1` maps a pair to the cheapest enumerated path between them, priced by the
level-`L` table. -/
def costTable : Nat → DirpadButton → DirpadButton → Nat
  | 0 => fun _ _ => 1
  | level + 1 => fun s g =>
    minOfList ((DirpadButton.iter_paths s g).map
      (fun p => get_path_cost p (costTable level)))

/-- `get_button_count`: total user keystrokes to type a numeric-button sequence
(which starts with the implicit `A` start marker) through `indirection` layers
of directional keypads.  Each consecutive numeric-button pair contributes the
cheapest enumerated numeric-keypad path, priced by the top-level table. -/
def get_button_count (num_seq : List NumpadButton) (indirection : Nat) : Nat :=
  ((pairsOf num_seq).map (fun sg =>
    minOfList ((NumpadButton.iter_paths sg.1 sg.2).map
      (fun p => get_path_cost p (costTable indirection))))).sum

/-- The digit character a numeric button displays, as a value; `A` is not a
digit (`none`), which makes `usize::from_str` fail in the Rust code. -/
def numpadDigit : NumpadButton → Option Nat
  | NumpadButton.ButtonA => none
  | NumpadButton.Button0 => some 0
  | NumpadButton.Button1 => some 1
  | NumpadButton.Button2 => some 2
  | NumpadButton.Button3 => some 3
  | NumpadButton.Button4 => some 4
  | NumpadButton.Button5 => some 5
  | NumpadButton.Button6 => some 6
  | NumpadButton.Button7 => some 7
  | NumpadButton.Button8 => some 8
  | NumpadButton.Button9 => some 9

/-- The numeric value a digit button contributes when the displayed code is
parsed in base 10 (`A` is not a digit; the 0 default is never used on
digits). -/
def digitVal (b : NumpadButton) : Nat := (numpadDigit b).getD 0

/-- `usize::MAX` on the 64-bit targets this program runs on. -/
def USIZE_MAX : Nat := 2 ^ 64 - 1

/-- One accumulation step of `usize::from_str`: reject a non-digit character,
then multiply by the radix and add the digit with checked arithmetic,
rejecting any result past `usize::MAX` (the `PosOverflow` error). -/
def parseStep (acc : Nat) (b : NumpadButton) : Option Nat :=
  (numpadDigit b).bind (fun d =>
    if acc * 10 + d ≤ USIZE_MAX then some (acc * 10 + d) else none)

/-- `str::strip_suffix("A")` on the displayed code: succeeds exactly when the
last button is `A`, returning the list without it. -/
def stripSuffixA (l : List NumpadButton) : Option (List NumpadButton) :=
  match l.getLast? with
  | some NumpadButton.ButtonA => some l.dropLast
  | _ => none

/-- `usize::from_str` on the displayed digits: fails on the empty string, on
any non-digit character (an interior `A`), and on overflow past `usize::MAX`
(`PosOverflow`); otherwise reads base 10. -/
def parseNat : List NumpadButton → Option Nat
  | [] => none
  | l => l.foldlM parseStep 0

/-- `NumpadSequence::code_value`.  `Display` for `NumpadSequence` skips the
leading start marker `A`, then the Rust code strips the trailing `"A"` and
parses the rest as `usize`; the two `expect` panics are embedded as `none`. -/
def code_value (seq : List NumpadButton) : Option Nat :=
  match stripSuffixA (seq.drop 1) with
  | some digits => parseNat digits
  | none => none

/-- `compute_total_complexity`: numeric value of the code times its minimal
keystroke count; undefined (`none`) where `code_value` panics. -/
def compute_total_complexity (seq : List NumpadButton) (indirection : Nat) :
    Option Nat :=
  (code_value seq).map (fun v => v * get_button_count seq indirection)

/-- `NumpadButton::parse`. -/
def NumpadButton.parse : Char → Option NumpadButton
  | 'A' => some NumpadButton.ButtonA
  | '0' => some NumpadButton.Button0
  | '1' => some NumpadButton.Button1
  | '2' => some NumpadButton.Button2
  | '3' => some NumpadButton.Button3
  | '4' => some NumpadButton.Button4
  | '5' => some NumpadButton.Button5
  | '6' => some NumpadButton.Button6
  | '7' => some NumpadButton.Button7
  | '8' => some NumpadButton.Button8
  | '9' => some NumpadButton.Button9
  | _ => none

/-- `NumpadSequence::parse`: prepends the start marker `A` to the parsed
buttons of one input line. -/
def parseSequence (line : List Char) : Option (List NumpadButton) :=
  (line.mapM NumpadButton.parse).map (fun bs => NumpadButton.ButtonA :: bs)

/-- Replay a move sequence through a keypad's `go`, failing as soon as a move
returns an error (would step onto the gap or off the grid). -/
def runDirs {α : Type} (go : α → Direction → Option α) : α → List Direction → Option α
  | s, [] => some s
  | s, d :: ds =>
    match go s d with
    | some nxt => runDirs go nxt ds
    | none => none

/-- Repeat an optional direction `n` times (no direction gives no moves). -/
def optReplicate : Option Direction → Nat → List Direction
  | some d, n => List.replicate n d
  | none, _ => []

/-- Horizontal distance between two positions. -/
def deltaX (s g : Pos) : Nat := (s.x - g.x) + (g.x - s.x)

/-- Vertical distance between two positions. -/
def deltaY (s g : Pos) : Nat := (s.y - g.y) + (g.y - s.y)

/-- The "x-axis first" axis-ordering of the minimal path between two
positions: all horizontal moves, then all vertical moves. -/
def xFirstDirs (s g : Pos) : List Direction :=
  optReplicate (get_dirs_towards s g).1 (deltaX s g) ++
    optReplicate (get_dirs_towards s g).2 (deltaY s g)

/-- The "y-axis first" axis-ordering of the minimal path between two
positions: all vertical moves, then all horizontal moves. -/
def yFirstDirs (s g : Pos) : List Direction :=
  optReplicate (get_dirs_towards s g).2 (deltaY s g) ++
    optReplicate (get_dirs_towards s g).1 (deltaX s g)

/-- The destination cell of one step from `p` in a direction, `none` when the
step leaves the grid through the top or left edge. -/
def stepPos? (p : Pos) : Direction → Option Pos
  | Direction.Up => if p.y = 0 then none else some ⟨p.x, p.y - 1⟩
  | Direction.Right => some ⟨p.x + 1, p.y⟩
  | Direction.Down => some ⟨p.x, p.y + 1⟩
  | Direction.Left => if p.x = 0 then none else some ⟨p.x - 1, p.y⟩

/-- The numeric keypad's gap cell: below `Button1`, left of `Button0`. -/
def numpadGap : Pos := ⟨0, 3⟩

/-- The directional keypad's gap cell: left of `ButtonU`. -/
def dirpadGap : Pos := ⟨0, 0⟩

/-- Whether an optional destination cell is a real button of a
`width × height` keypad with gap `gap`. -/
def onGrid (width height : Nat) (gap : Pos) : Option Pos → Bool
  | none => false
  | some p => decide (p.x < width) && decide (p.y < height) && decide (p ≠ gap)

/-- C1: for the five sample codes 029A, 980A, 179A, 456A, 379A, the sum of
`compute_total_complexity` at indirection depth 2 is exactly 126384. -/
theorem C1_example_total_complexity :
    (([['0', '2', '9', 'A'], ['9', '8', '0', 'A'], ['1', '7', '9', 'A'],
        ['4', '5', '6', 'A'], ['3', '7', '9', 'A']].mapM
      (fun code => (parseSequence code).bind
        (fun seq => compute_total_complexity seq 2))).map List.sum) = some 126384 := by
  decide

/-- C6 (amended): a zero-length code costs 0 keystrokes at every indirection
depth, but its complexity is undefined (`code_value` panics on the empty
displayed string), so it cannot contribute 0 to the aggregate. -/
theorem C6_empty_code :
    ∀ indirection : Nat,
      get_button_count [NumpadButton.ButtonA] indirection = 0 ∧
      compute_total_complexity [NumpadButton.ButtonA] indirection = none :=
  fun _ => ⟨rfl, rfl⟩

/-- C6 counterexample: the empty code does not contribute 0 to the aggregate
complexity — its complexity is undefined (the Rust code panics in
`code_value`), refuting the claim that it contributes 0 at depth 2. -/
theorem C6_counterexample :
    compute_total_complexity [NumpadButton.ButtonA] 2 ≠ some 0 := by decide

/-- C7: from any button to itself, on either keypad, the enumerator yields
exactly one sequence — the start marker `A` followed by the confirming `A`
press and no movement — the level-0 table maps all 25 directional pairs to 1,
and that single sequence costs exactly 1 under the level-0 table. -/
theorem C7_self_path_cost :
    (∀ b : NumpadButton,
      NumpadButton.iter_paths b b = [[DirpadButton.ButtonA, DirpadButton.ButtonA]]) ∧
    (∀ b : DirpadButton,
      DirpadButton.iter_paths b b = [[DirpadButton.ButtonA, DirpadButton.ButtonA]]) ∧
    (∀ s g : DirpadButton, costTable 0 s g = 1) ∧
    get_path_cost [DirpadButton.ButtonA, DirpadButton.ButtonA] (costTable 0) = 1 := by
  decide

/-- C2 (amended): on either keypad the enumerator yields at least one
sequence, and every yielded sequence makes Manhattan-distance-many moves plus
the trailing confirm press (the leading `A` of a `DirpadSequence` is the start
marker, not a press, hence the `drop 1`).  On the directional keypad the count
is additionally at most 2, but on the numeric keypad it can exceed 2: the DFS
yields every gap-avoiding interleaving of the two axes, not only the two
axis-orderings. -/
theorem C2_path_count_and_length :
    (∀ s g : NumpadButton,
      1 ≤ (NumpadButton.iter_paths s g).length ∧
      ∀ p ∈ NumpadButton.iter_paths s g,
        (p.drop 1).length = manhattan s.get_pos g.get_pos + 1) ∧
    (∀ s g : DirpadButton,
      1 ≤ (DirpadButton.iter_paths s g).length ∧
      (DirpadButton.iter_paths s g).length ≤ 2 ∧
      ∀ p ∈ DirpadButton.iter_paths s g,
        (p.drop 1).length = manhattan s.get_pos g.get_pos + 1) := by
  decide

/-- Witness for C2: the sequence up-left-left from `A` to `1` on the numeric
keypad is among the enumerated paths and has length Manhattan distance plus
one. -/
theorem C2_path_count_and_length_witness :
    ofDirs [Direction.Up, Direction.Left, Direction.Left] ∈
      NumpadButton.iter_paths NumpadButton.ButtonA NumpadButton.Button1 ∧
    ((ofDirs [Direction.Up, Direction.Left, Direction.Left]).drop 1).length =
      manhattan NumpadButton.ButtonA.get_pos NumpadButton.Button1.get_pos + 1 :=
  ⟨by decide,
    (C2_path_count_and_length.1 NumpadButton.ButtonA NumpadButton.Button1).2 _ (by decide)⟩

/-- C2 counterexample: from `1` to `9` on the numeric keypad the enumerator
returns 6 sequences, not between 1 and 2 — the DFS enumerates every monotone
interleaving of the two axes, and no interleaving is blocked by the gap
here. -/
theorem C2_counterexample :
    (NumpadButton.iter_paths NumpadButton.Button1 NumpadButton.Button9).length = 6 := by
  decide

set_option synthInstance.maxHeartbeats 1600000 in
set_option synthInstance.maxSize 2048 in
/-- C3 (amended): on either keypad, whenever exactly one of the two
axis-orderings of the minimal path would pass through the gap (its replay
fails), the enumerator still returns at least one sequence, every returned
sequence replays successfully from the start button to the goal, and a blocked
axis-ordering is never among the returned sequences — but the count can exceed
one, because unblocked interleavings of the two axes are also returned. -/
theorem C3_gap_blocked_ordering :
    (∀ s g : NumpadButton,
      ((runDirs NumpadButton.go s (xFirstDirs s.get_pos g.get_pos) = none ∧
        runDirs NumpadButton.go s (yFirstDirs s.get_pos g.get_pos) ≠ none) ∨
       (runDirs NumpadButton.go s (xFirstDirs s.get_pos g.get_pos) ≠ none ∧
        runDirs NumpadButton.go s (yFirstDirs s.get_pos g.get_pos) = none)) →
      1 ≤ (NumpadButton.iter_path_dirs s g).length ∧
      (∀ dirs ∈ NumpadButton.iter_path_dirs s g,
        runDirs NumpadButton.go s dirs = some g) ∧
      (runDirs NumpadButton.go s (xFirstDirs s.get_pos g.get_pos) = none →
        xFirstDirs s.get_pos g.get_pos ∉ NumpadButton.iter_path_dirs s g) ∧
      (runDirs NumpadButton.go s (yFirstDirs s.get_pos g.get_pos) = none →
        yFirstDirs s.get_pos g.get_pos ∉ NumpadButton.iter_path_dirs s g)) ∧
    (∀ s g : DirpadButton,
      ((runDirs DirpadButton.go s (xFirstDirs s.get_pos g.get_pos) = none ∧
        runDirs DirpadButton.go s (yFirstDirs s.get_pos g.get_pos) ≠ none) ∨
       (runDirs DirpadButton.go s (xFirstDirs s.get_pos g.get_pos) ≠ none ∧
        runDirs DirpadButton.go s (yFirstDirs s.get_pos g.get_pos) = none)) →
      1 ≤ (DirpadButton.iter_path_dirs s g).length ∧
      (∀ dirs ∈ DirpadButton.iter_path_dirs s g,
        runDirs DirpadButton.go s dirs = some g) ∧
      (runDirs DirpadButton.go s (xFirstDirs s.get_pos g.get_pos) = none →
        xFirstDirs s.get_pos g.get_pos ∉ DirpadButton.iter_path_dirs s g) ∧
      (runDirs DirpadButton.go s (yFirstDirs s.get_pos g.get_pos) = none →
        yFirstDirs s.get_pos g.get_pos ∉ DirpadButton.iter_path_dirs s g)) := by
  decide

/-- Witness for C3: from `A` to `1` on the numeric keypad the left-left-up
ordering is blocked by the gap while the up-left-left ordering is not, and the
conclusion holds there. -/
theorem C3_gap_blocked_ordering_witness :
    (runDirs NumpadButton.go NumpadButton.ButtonA
        (xFirstDirs NumpadButton.ButtonA.get_pos NumpadButton.Button1.get_pos) = none ∧
      runDirs NumpadButton.go NumpadButton.ButtonA
        (yFirstDirs NumpadButton.ButtonA.get_pos NumpadButton.Button1.get_pos) ≠ none) ∧
    (1 ≤ (NumpadButton.iter_path_dirs NumpadButton.ButtonA NumpadButton.Button1).length ∧
      (∀ dirs ∈ NumpadButton.iter_path_dirs NumpadButton.ButtonA NumpadButton.Button1,
        runDirs NumpadButton.go NumpadButton.ButtonA dirs = some NumpadButton.Button1) ∧
      (runDirs NumpadButton.go NumpadButton.ButtonA
          (xFirstDirs NumpadButton.ButtonA.get_pos NumpadButton.Button1.get_pos) = none →
        xFirstDirs NumpadButton.ButtonA.get_pos NumpadButton.Button1.get_pos ∉
          NumpadButton.iter_path_dirs NumpadButton.ButtonA NumpadButton.Button1) ∧
      (runDirs NumpadButton.go NumpadButton.ButtonA
          (yFirstDirs NumpadButton.ButtonA.get_pos NumpadButton.Button1.get_pos) = none →
        yFirstDirs NumpadButton.ButtonA.get_pos NumpadButton.Button1.get_pos ∉
          NumpadButton.iter_path_dirs NumpadButton.ButtonA NumpadButton.Button1)) :=
  ⟨by decide,
    C3_gap_blocked_ordering.1 NumpadButton.ButtonA NumpadButton.Button1 (by decide)⟩

/-- C3 counterexample: from `A` to `1` on the numeric keypad exactly one
axis-ordering (left-left-up) is blocked by the gap, yet the enumerator returns
2 sequences, not exactly one — matching the repository's own
`test_path_iter_on_numpad`. -/
theorem C3_counterexample :
    (runDirs NumpadButton.go NumpadButton.ButtonA
        (xFirstDirs NumpadButton.ButtonA.get_pos NumpadButton.Button1.get_pos) = none ∧
      runDirs NumpadButton.go NumpadButton.ButtonA
        (yFirstDirs NumpadButton.ButtonA.get_pos NumpadButton.Button1.get_pos) ≠ none) ∧
    (NumpadButton.iter_path_dirs NumpadButton.ButtonA NumpadButton.Button1).length = 2 := by
  decide

/-- C5: on either keypad, `go` fails exactly when the one-step destination
cell is off the grid or is the gap, and on success the returned button sits
exactly one step away in the given direction.  In this embedding `go` is a
pure function of the button and the direction, as the claim requires. -/
theorem C5_go_error_contract :
    (∀ (b : NumpadButton) (d : Direction),
      (b.go d = none ↔ onGrid 3 4 numpadGap (stepPos? b.get_pos d) = false) ∧
      ∀ b2, b.go d = some b2 → stepPos? b.get_pos d = some b2.get_pos) ∧
    (∀ (b : DirpadButton) (d : Direction),
      (b.go d = none ↔ onGrid 3 2 dirpadGap (stepPos? b.get_pos d) = false) ∧
      ∀ b2, b.go d = some b2 → stepPos? b.get_pos d = some b2.get_pos) := by
  decide

/-- Witness for C5: moving up from `A` on the numeric keypad reaches `3`,
whose position is one step up from `A`'s. -/
theorem C5_go_error_contract_witness :
    NumpadButton.ButtonA.go Direction.Up = some NumpadButton.Button3 ∧
    stepPos? NumpadButton.ButtonA.get_pos Direction.Up = some NumpadButton.Button3.get_pos :=
  ⟨by decide,
    (C5_go_error_contract.1 NumpadButton.ButtonA Direction.Up).2 NumpadButton.Button3
      (by decide)⟩

/-- Taking the minimum over mapped costs is monotone in the cost function. -/
theorem minOfList_map_mono {α : Type} (l : List α) (f g : α → Nat)
    (h : ∀ x ∈ l, f x ≤ g x) : minOfList (l.map f) ≤ minOfList (l.map g) := by
  induction l with
  | nil => simp [minOfList]
  | cons a t ih =>
    cases t with
    | nil => simpa [minOfList] using h a (by simp)
    | cons b t2 =>
      have ha := h a (by simp)
      have ht : ∀ x ∈ b :: t2, f x ≤ g x := fun x hx => h x (by simp [hx])
      simp only [List.map_cons, minOfList]
      exact min_le_min ha (by simpa [List.map_cons] using ih ht)

/-- `get_path_cost` is monotone in the per-pair cost table. -/
theorem get_path_cost_mono (path : List DirpadButton)
    (c1 c2 : DirpadButton → DirpadButton → Nat) (h : ∀ s g, c1 s g ≤ c2 s g) :
    get_path_cost path c1 ≤ get_path_cost path c2 := by
  unfold get_path_cost
  exact List.sum_le_sum fun i _ => h i.1 i.2

/-- C4: for every pair of directional buttons, one more level of indirection
never makes the tabled transition cost smaller: the level-`L+1` entry is
at least the level-`L` entry. -/
theorem C4_cost_table_monotone :
    ∀ (level : Nat) (s g : DirpadButton),
      costTable level s g ≤ costTable (level + 1) s g := by
  intro level
  induction level with
  | zero => decide
  | succ L ih =>
    intro s g
    show costTable (L + 1) s g ≤ costTable (L + 2) s g
    simp only [costTable]
    exact minOfList_map_mono _ _ _ fun p _ => get_path_cost_mono p _ _ ih

/-- C8: every enumerated move sequence, converted to a `DirpadSequence`,
begins and ends with an `A` press, and replaying its moves from the start
button through `go` never fails (never enters the gap or leaves the grid) and
lands exactly on the goal button. -/
theorem C8_paths_replay_safely :
    (∀ s g : NumpadButton, ∀ dirs ∈ NumpadButton.iter_path_dirs s g,
      runDirs NumpadButton.go s dirs = some g ∧
      (ofDirs dirs).head? = some DirpadButton.ButtonA ∧
      (ofDirs dirs).getLast? = some DirpadButton.ButtonA) ∧
    (∀ s g : DirpadButton, ∀ dirs ∈ DirpadButton.iter_path_dirs s g,
      runDirs DirpadButton.go s dirs = some g ∧
      (ofDirs dirs).head? = some DirpadButton.ButtonA ∧
      (ofDirs dirs).getLast? = some DirpadButton.ButtonA) := by
  decide

/-- Witness for C8: the enumerated path up-left-left from `A` to `1` on the
numeric keypad replays safely and is bracketed by `A` presses. -/
theorem C8_paths_replay_safely_witness :
    runDirs NumpadButton.go NumpadButton.ButtonA
        [Direction.Up, Direction.Left, Direction.Left] = some NumpadButton.Button1 ∧
    (ofDirs [Direction.Up, Direction.Left, Direction.Left]).head? =
      some DirpadButton.ButtonA ∧
    (ofDirs [Direction.Up, Direction.Left, Direction.Left]).getLast? =
      some DirpadButton.ButtonA :=
  C8_paths_replay_safely.1 NumpadButton.ButtonA NumpadButton.Button1
    [Direction.Up, Direction.Left, Direction.Left] (by decide)

/-- The Manhattan distance from a position to itself is zero. -/
theorem manhattan_self (p : Pos) : manhattan p p = 0 := by
  simp [manhattan]

/-- At Manhattan distance zero, no direction points towards the goal. -/
theorem get_dirs_towards_of_dist_zero (p q : Pos) (h : manhattan p q = 0) :
    get_dirs_towards p q = (none, none) := by
  unfold manhattan at h
  have hx : p.x = q.x := by omega
  have hy : p.y = q.y := by omega
  simp [get_dirs_towards, hx, hy]

/-- The horizontal direction offered by `get_dirs_towards` steps to a cell one
closer to the goal in Manhattan distance. -/
theorem dirs_fst_step (p q : Pos) (d : Direction)
    (h : (get_dirs_towards p q).1 = some d) :
    ∃ p2, stepPos? p d = some p2 ∧ manhattan p2 q + 1 = manhattan p q := by
  unfold get_dirs_towards at h
  by_cases h1 : p.x < q.x
  · simp only [h1, if_true, Option.some.injEq] at h
    subst h
    refine ⟨⟨p.x + 1, p.y⟩, rfl, ?_⟩
    simp only [manhattan]
    omega
  · by_cases h2 : q.x < p.x
    · simp only [h1, h2, if_false, if_true, Option.some.injEq] at h
      subst h
      refine ⟨⟨p.x - 1, p.y⟩, ?_, ?_⟩
      · have hz : ¬ p.x = 0 := by omega
        simp [stepPos?, hz]
      · simp only [manhattan]
        omega
    · simp [h1, h2] at h

/-- The vertical direction offered by `get_dirs_towards` steps to a cell one
closer to the goal in Manhattan distance. -/
theorem dirs_snd_step (p q : Pos) (d : Direction)
    (h : (get_dirs_towards p q).2 = some d) :
    ∃ p2, stepPos? p d = some p2 ∧ manhattan p2 q + 1 = manhattan p q := by
  unfold get_dirs_towards at h
  by_cases h1 : p.y < q.y
  · simp only [h1, if_true, Option.some.injEq] at h
    subst h
    refine ⟨⟨p.x, p.y + 1⟩, rfl, ?_⟩
    simp only [manhattan]
    omega
  · by_cases h2 : q.y < p.y
    · simp only [h1, h2, if_false, if_true, Option.some.injEq] at h
      subst h
      refine ⟨⟨p.x, p.y - 1⟩, ?_, ?_⟩
      · have hz : ¬ p.y = 0 := by omega
        simp [stepPos?, hz]
      · simp only [manhattan]
        omega
    · simp [h1, h2] at h

/-- A DFS branch depends only on the recursive enumeration at the nodes it can
actually reach. -/
theorem branchPaths_congr {α : Type} (r1 r2 : α → List (List Direction))
    (go : α → Direction → Option α) (s : α) (od : Option Direction)
    (h : ∀ d nxt, od = some d → go s d = some nxt → r1 nxt = r2 nxt) :
    branchPaths r1 go s od = branchPaths r2 go s od := by
  cases od with
  | none => rfl
  | some d =>
    simp only [branchPaths]
    cases hgo : go s d with
    | none => rfl
    | some nxt => simp [h d nxt rfl hgo]

/-- Termination of the DFS: on a keypad whose `go` moves exactly one grid step
(hypothesis `hstep`), any fuel at least the Manhattan distance to the goal
gives the same enumeration as fuel exactly the Manhattan distance — every
explored move strictly reduces the remaining distance, so the recursion
bottoms out. -/
theorem pathsAux_fuel_sufficient {α : Type} [DecidableEq α]
    (go : α → Direction → Option α) (pos : α → Pos)
    (hstep : ∀ a d b, go a d = some b → stepPos? (pos a) d = some (pos b))
    (goal : α) :
    ∀ (fuel : Nat) (s : α), manhattan (pos s) (pos goal) ≤ fuel →
      pathsAux go pos goal fuel s =
        pathsAux go pos goal (manhattan (pos s) (pos goal)) s := by
  intro fuel
  induction fuel with
  | zero =>
    intro s h
    rw [Nat.le_zero.mp h]
  | succ f ih =>
    intro s h
    by_cases hg : s = goal
    · subst hg
      rw [manhattan_self]
      simp [pathsAux]
    · cases hm : manhattan (pos s) (pos goal) with
      | zero =>
        have hd := get_dirs_towards_of_dist_zero (pos s) (pos goal) hm
        simp [pathsAux, hg, hd, branchPaths]
      | succ m =>
        have hf : m ≤ f := by omega
        simp only [pathsAux, if_neg hg]
        have hbranch : ∀ od, ((get_dirs_towards (pos s) (pos goal)).1 = od ∨
            (get_dirs_towards (pos s) (pos goal)).2 = od) →
            branchPaths (pathsAux go pos goal f) go s od =
              branchPaths (pathsAux go pos goal m) go s od := by
          intro od hod
          apply branchPaths_congr
          intro d nxt hd hgo
          have hdist : manhattan (pos nxt) (pos goal) = m := by
            have hstep2 := hstep s d nxt hgo
            rcases hod with hod | hod
            · obtain ⟨p2, hp2, hdec⟩ := dirs_fst_step (pos s) (pos goal) d (hod.trans hd)
              rw [hp2] at hstep2
              have hpe : pos nxt = p2 := (Option.some.injEq _ _).mp hstep2.symm
              rw [hpe]
              omega
            · obtain ⟨p2, hp2, hdec⟩ := dirs_snd_step (pos s) (pos goal) d (hod.trans hd)
              rw [hp2] at hstep2
              have hpe : pos nxt = p2 := (Option.some.injEq _ _).mp hstep2.symm
              rw [hpe]
              omega
          calc pathsAux go pos goal f nxt
              = pathsAux go pos goal (manhattan (pos nxt) (pos goal)) nxt :=
                ih nxt (by omega)
            _ = pathsAux go pos goal m nxt := by rw [hdist]
        rw [hbranch _ (Or.inr rfl), hbranch _ (Or.inl rfl)]

/-- C9: the path enumeration terminates on both keypads: the DFS only takes
moves that strictly reduce the remaining Manhattan distance to the goal, so
the recursion needs no more fuel than that distance — with any fuel at least
the Manhattan distance the enumeration equals `iter_path_dirs` (which uses
exactly that distance).  The cost-table construction is structural recursion
on the level (`costTable`) over these finite enumerations, so it terminates
with it. -/
theorem C9_enumeration_terminates :
    (∀ (s g : NumpadButton) (fuel : Nat),
      manhattan s.get_pos g.get_pos ≤ fuel →
      pathsAux NumpadButton.go NumpadButton.get_pos g fuel s =
        NumpadButton.iter_path_dirs s g) ∧
    (∀ (s g : DirpadButton) (fuel : Nat),
      manhattan s.get_pos g.get_pos ≤ fuel →
      pathsAux DirpadButton.go DirpadButton.get_pos g fuel s =
        DirpadButton.iter_path_dirs s g) :=
  ⟨fun s g fuel h =>
    pathsAux_fuel_sufficient NumpadButton.go NumpadButton.get_pos
      (by decide) g fuel s h,
  fun s g fuel h =>
    pathsAux_fuel_sufficient DirpadButton.go DirpadButton.get_pos
      (by decide) g fuel s h⟩

/-- Witness for C9: with fuel 30 (far above the Manhattan distance 5), the
DFS from `7` to `A` on the numeric keypad gives exactly the enumeration that
`iter_path_dirs` computes with fuel 5. -/
theorem C9_enumeration_terminates_witness :
    manhattan NumpadButton.Button7.get_pos NumpadButton.ButtonA.get_pos ≤ 30 ∧
    pathsAux NumpadButton.go NumpadButton.get_pos NumpadButton.ButtonA 30
        NumpadButton.Button7 =
      NumpadButton.iter_path_dirs NumpadButton.Button7 NumpadButton.ButtonA :=
  ⟨by decide,
    C9_enumeration_terminates.1 NumpadButton.Button7 NumpadButton.ButtonA 30 (by decide)⟩

/-- Stripping the `"A"` suffix succeeds on a code ending in `A` and leaves
the front. -/
theorem stripSuffixA_concat (l : List NumpadButton) :
    stripSuffixA (l ++ [NumpadButton.ButtonA]) = some l := by
  simp [stripSuffixA, List.getLast?_concat, List.dropLast_concat]

/-- Stripping the `"A"` suffix fails on a nonempty code not ending in `A`. -/
theorem stripSuffixA_concat_ne (l : List NumpadButton) (a : NumpadButton)
    (ha : a ≠ NumpadButton.ButtonA) :
    stripSuffixA (l ++ [a]) = none := by
  cases a <;>
    first
      | exact absurd rfl ha
      | simp [stripSuffixA, List.getLast?_concat]

/-- The base-10 fold over digit values never decreases the accumulator. -/
theorem foldl_digits_ge (l : List NumpadButton) :
    ∀ acc : Nat, acc ≤ l.foldl (fun acc b => acc * 10 + digitVal b) acc := by
  induction l with
  | nil => intro acc; simp
  | cons b t ih =>
    intro acc
    simp only [List.foldl_cons]
    exact le_trans (by omega) (ih (acc * 10 + digitVal b))

/-- Parsing succeeds on an all-digit list whose base-10 reading fits in
`usize`, yielding that reading: no checked step overflows because the partial
values never exceed the final one. -/
theorem foldlM_digits (l : List NumpadButton)
    (hl : ∀ b ∈ l, b ≠ NumpadButton.ButtonA) :
    ∀ acc : Nat,
      l.foldl (fun acc b => acc * 10 + digitVal b) acc ≤ USIZE_MAX →
      l.foldlM parseStep acc =
        some (l.foldl (fun acc b => acc * 10 + digitVal b) acc) := by
  induction l with
  | nil => intro acc _; rfl
  | cons b t ih =>
    intro acc hle
    have hb : b ≠ NumpadButton.ButtonA := hl b (by simp)
    have hsome : numpadDigit b = some (digitVal b) := by
      cases b <;> first | exact absurd rfl hb | rfl
    have ht : ∀ x ∈ t, x ≠ NumpadButton.ButtonA := fun x hx => hl x (by simp [hx])
    simp only [List.foldl_cons] at hle
    have hstep : acc * 10 + digitVal b ≤ USIZE_MAX :=
      le_trans (foldl_digits_ge t (acc * 10 + digitVal b)) hle
    simp only [List.foldlM_cons, parseStep, hsome, Option.some_bind,
      Option.bind_eq_bind, if_pos hstep, List.foldl_cons]
    exact ih ht (acc * 10 + digitVal b) hle

/-- Parsing an all-digit list fails with `PosOverflow` when its base-10
reading exceeds `usize::MAX` and the accumulator starts inside range: the
checked step rejects the first partial value out of range. -/
theorem foldlM_digits_overflow (l : List NumpadButton)
    (hl : ∀ b ∈ l, b ≠ NumpadButton.ButtonA) :
    ∀ acc : Nat, acc ≤ USIZE_MAX →
      USIZE_MAX < l.foldl (fun acc b => acc * 10 + digitVal b) acc →
      l.foldlM parseStep acc = none := by
  induction l with
  | nil =>
    intro acc h1 h2
    simp only [List.foldl_nil] at h2
    omega
  | cons b t ih =>
    intro acc h1 h2
    have hb : b ≠ NumpadButton.ButtonA := hl b (by simp)
    have hsome : numpadDigit b = some (digitVal b) := by
      cases b <;> first | exact absurd rfl hb | rfl
    have ht : ∀ x ∈ t, x ≠ NumpadButton.ButtonA := fun x hx => hl x (by simp [hx])
    simp only [List.foldl_cons] at h2
    by_cases hov : acc * 10 + digitVal b ≤ USIZE_MAX
    · simp only [List.foldlM_cons, parseStep, hsome, Option.some_bind,
        Option.bind_eq_bind, if_pos hov]
      exact ih ht (acc * 10 + digitVal b) hov h2
    · simp only [List.foldlM_cons, parseStep, hsome, Option.some_bind,
        Option.bind_eq_bind, if_neg hov]
      rfl

/-- Parsing fails as soon as the list contains the non-digit `A`. -/
theorem foldlM_hasA (l : List NumpadButton) (hA : NumpadButton.ButtonA ∈ l) :
    ∀ acc : Nat, l.foldlM parseStep acc = none := by
  induction l with
  | nil => cases hA
  | cons b t ih =>
    intro acc
    by_cases hb : b = NumpadButton.ButtonA
    · subst hb
      simp [List.foldlM_cons, parseStep, numpadDigit]
    · have hA2 : NumpadButton.ButtonA ∈ t := by
        rcases List.mem_cons.mp hA with h | h
        · exact absurd h.symm hb
        · exact h
      have hsome : numpadDigit b = some (digitVal b) := by
        cases b <;> first | exact absurd rfl hb | rfl
      by_cases hov : acc * 10 + digitVal b ≤ USIZE_MAX
      · simp only [List.foldlM_cons, parseStep, hsome, Option.some_bind,
          Option.bind_eq_bind, if_pos hov]
        exact ih hA2 _
      · simp only [List.foldlM_cons, parseStep, hsome, Option.some_bind,
          Option.bind_eq_bind, if_neg hov]
        rfl

/-- `parseNat` on a nonempty list is the checked digit fold. -/
theorem parseNat_cons (b : NumpadButton) (t : List NumpadButton) :
    parseNat (b :: t) = (b :: t).foldlM parseStep 0 := rfl

/-- C10 (amended): `code_value` is defined exactly for codes whose press
sequence is at least one digit followed by a single final `Activate`, with
the digits reading in base 10 to at most `usize::MAX`: on every such code it
returns that reading, and on every press sequence not of this shape —
including the empty one, the bare `Activate` with no digits in front, and an
all-digit code whose value overflows `usize`, which the original claim
admitted — it is undefined (the Rust code panics at the `strip_suffix` or
parse `expect`, the latter on an interior `A` or on `PosOverflow`).  The `A`
in front of `presses` is the start marker the parser prepends, not a
press. -/
theorem C10_code_value_shape :
    (∀ digits : List NumpadButton, digits ≠ [] →
      (∀ b ∈ digits, b ≠ NumpadButton.ButtonA) →
      digits.foldl (fun acc b => acc * 10 + digitVal b) 0 ≤ USIZE_MAX →
      code_value (NumpadButton.ButtonA :: (digits ++ [NumpadButton.ButtonA])) =
        some (digits.foldl (fun acc b => acc * 10 + digitVal b) 0)) ∧
    (∀ presses : List NumpadButton,
      (¬ ∃ digits, presses = digits ++ [NumpadButton.ButtonA] ∧ digits ≠ [] ∧
        (∀ b ∈ digits, b ≠ NumpadButton.ButtonA) ∧
        digits.foldl (fun acc b => acc * 10 + digitVal b) 0 ≤ USIZE_MAX) →
      code_value (NumpadButton.ButtonA :: presses) = none) := by
  constructor
  · intro ds hne hnoA hfit
    have h1 : code_value (NumpadButton.ButtonA :: (ds ++ [NumpadButton.ButtonA])) =
        parseNat ds := by
      unfold code_value
      rw [show (NumpadButton.ButtonA :: (ds ++ [NumpadButton.ButtonA])).drop 1 =
        ds ++ [NumpadButton.ButtonA] from rfl, stripSuffixA_concat]
    rw [h1]
    cases ds with
    | nil => exact absurd rfl hne
    | cons b t =>
      rw [parseNat_cons]
      exact foldlM_digits (b :: t) hnoA 0 hfit
  · intro presses hnotex
    rcases presses.eq_nil_or_concat' with hnil | ⟨l, a, rfl⟩
    · subst hnil
      rfl
    · by_cases ha : a = NumpadButton.ButtonA
      · subst ha
        have h1 : code_value (NumpadButton.ButtonA :: (l ++ [NumpadButton.ButtonA])) =
            parseNat l := by
          unfold code_value
          rw [show (NumpadButton.ButtonA :: (l ++ [NumpadButton.ButtonA])).drop 1 =
            l ++ [NumpadButton.ButtonA] from rfl, stripSuffixA_concat]
        rw [h1]
        by_cases hl : l = []
        · subst hl
          rfl
        · by_cases hnoA : ∀ b ∈ l, b ≠ NumpadButton.ButtonA
          · have hov : USIZE_MAX < l.foldl (fun acc b => acc * 10 + digitVal b) 0 := by
              by_contra hc
              push_neg at hc
              exact hnotex ⟨l, rfl, hl, hnoA, hc⟩
            cases l with
            | nil => exact absurd rfl hl
            | cons b t =>
              rw [parseNat_cons]
              exact foldlM_digits_overflow (b :: t) hnoA 0 (Nat.zero_le _) hov
          · have hA : NumpadButton.ButtonA ∈ l := by
              push_neg at hnoA
              obtain ⟨b, hb, hbe⟩ := hnoA
              exact hbe ▸ hb
            cases l with
            | nil => exact absurd rfl hl
            | cons b t =>
              rw [parseNat_cons]
              exact foldlM_hasA (b :: t) hA 0
      · unfold code_value
        rw [show (NumpadButton.ButtonA :: (l ++ [a])).drop 1 = l ++ [a] from rfl,
          stripSuffixA_concat_ne l a ha]

/-- Witness for C10: the code 029A evaluates to 29, the bare start marker (the
empty press sequence) has no value, and a twenty-nines code — whose base-10
reading exceeds `usize::MAX` — has no value either. -/
theorem C10_code_value_shape_witness :
    code_value (NumpadButton.ButtonA ::
        ([NumpadButton.Button0, NumpadButton.Button2, NumpadButton.Button9] ++
          [NumpadButton.ButtonA])) = some 29 ∧
    code_value [NumpadButton.ButtonA] = none ∧
    code_value (NumpadButton.ButtonA ::
        (List.replicate 20 NumpadButton.Button9 ++ [NumpadButton.ButtonA])) = none :=
  ⟨(C10_code_value_shape.1
      [NumpadButton.Button0, NumpadButton.Button2, NumpadButton.Button9]
      (by decide) (by decide) (by decide)).trans (by decide),
    C10_code_value_shape.2 []
      (by rintro ⟨ds, hds, -, -, -⟩; simp at hds),
    C10_code_value_shape.2 (List.replicate 20 NumpadButton.Button9 ++ [NumpadButton.ButtonA])
      (by
        rintro ⟨ds, hds, -, -, hle⟩
        rw [List.append_cancel_right hds.symm] at hle
        exact absurd hle (by decide))⟩

/-- C10 counterexample: the code consisting of a single `Activate` press ends
in `Activate` and contains no other `Activate`, yet its numeric value is
undefined (the Rust parse of the empty digit string panics) instead of being
a base-10 number. -/
theorem C10_counterexample :
    ([NumpadButton.ButtonA].getLast? = some NumpadButton.ButtonA ∧
      ∀ b ∈ [NumpadButton.ButtonA].dropLast, b ≠ NumpadButton.ButtonA) ∧
    code_value [NumpadButton.ButtonA, NumpadButton.ButtonA] = none := by
  decide

end Day21
